import Mathlib

/-!
# Monitoring-system: the report printer of `main.go`

A shallow embedding of `src/main.go` (a terminal system monitor written in Go) and
theorems about its byte formatter and its report sections.

Conventions of the embedding.

* `uint64` values are natural numbers below `2 ^ 64`; the one multiplication that could
  wrap (`div *= unit`) is reduced modulo `2 ^ 64` explicitly.  Counters delivered by the
  operating system have type `Uint64`.
* Standard output is a `String`.  A function that prints has type `Run α`: the text it
  wrote, and its result, which is `none` when a run-time panic (slice index out of range,
  nil pointer dereference) stopped it.
* The host queries of `gopsutil`, `runtime` and `os` are inputs (`Host`).  A slice result
  is a `List` (nil slice = `[]`), a pointer result is an `Option` (nil pointer = `none`).
* `float64` values delivered by the host stay abstract (`Float64Ops`).  The quotient
  printed by `formatBytes` is computed exactly: `float64(bytes)` is `bytes` rounded to 53
  significant bits, ties to even, and dividing a float by a power of two is exact.
-/

namespace Monitor

/-! ## Run-time model -/

/-- Go `uint64`. -/
abbrev Uint64 : Type := Fin (2 ^ 64)

/-- Effect of running a piece of the program: the text written to standard output and the
result, `none` when a run-time panic stopped the run. -/
structure Run (α : Type) where
  out : String
  val : Option α
deriving DecidableEq

namespace Run

/-- Return a value, print nothing. -/
def pure {α : Type} (a : α) : Run α := ⟨"", some a⟩

/-- Sequencing: the second part runs only when the first did not panic; its output is
appended to that of the first. -/
def bind {α β : Type} (x : Run α) (f : α → Run β) : Run β :=
  match x.val with
  | some a => ⟨x.out ++ (f a).out, (f a).val⟩
  | none => ⟨x.out, none⟩

instance : Monad Run where
  pure := Run.pure
  bind := Run.bind

/-- Go `fmt.Println(s)`: the text and a newline. -/
def Println (s : String) : Run Unit := ⟨s ++ "\n", some ()⟩

/-- Go `fmt.Printf` once its verbs are expanded into `s`. -/
def Printf (s : String) : Run Unit := ⟨s, some ()⟩

/-- Go slice indexing `xs[i]`: panics when `i` is out of range. -/
def index {α : Type} (xs : List α) (i : Nat) : Run α := ⟨"", xs[i]?⟩

/-- Go field access through a pointer, `p.f`: panics when `p` is nil. -/
def deref {α : Type} (p : Option α) : Run α := ⟨"", p⟩

/-- Go `for _, x := range xs`, the body run on each element in order. -/
def forRange {α : Type} : List α → (α → Run Unit) → Run Unit
  | [], _ => Run.pure ()
  | x :: xs, body => Run.bind (body x) (fun _ => forRange xs body)

end Run

/-- The `float64` operations the program takes from the Go runtime and the `fmt` package,
on values that come from the host. -/
structure Float64Ops (F : Type) where
  /-- zero value of `var temp float64` -/
  zero : F
  /-- the division `temp / 1000` -/
  div1000 : F → F
  /-- verb `%.1f` -/
  fmt1 : F → String
  /-- verb `%.2f` -/
  fmt2 : F → String
  /-- call `fmt.Sscanf(s, "%f", &temp)`: `some v` when a number was scanned and stored,
  `none` when the scan failed and `temp` was left untouched -/
  sscanf : String → Option F

/-! ## Data delivered by the host (the fields `main.go` reads) -/

/-- Type `cpu.InfoStat`. -/
structure InfoStat where
  ModelName : String

/-- Type `mem.VirtualMemoryStat`. -/
structure VirtualMemoryStat (F : Type) where
  Total : Uint64
  Available : Uint64
  Used : Uint64
  UsedPercent : F

/-- Type `disk.PartitionStat`. -/
structure PartitionStat where
  Mountpoint : String

/-- Type `disk.UsageStat`. -/
structure UsageStat (F : Type) where
  Total : Uint64
  Used : Uint64
  UsedPercent : F

/-- Type `net.IOCountersStat`. -/
structure IOCountersStat where
  Name : String
  BytesSent : Uint64
  BytesRecv : Uint64

/-- Type `load.AvgStat`. -/
structure AvgStat (F : Type) where
  Load1 : F
  Load5 : F
  Load15 : F

/-- Everything one call of `printSystemInfo` obtains from outside the program. -/
structure Host (F : Type) where
  /-- constant `runtime.GOOS` -/
  GOOS : String
  /-- value of `runtime.NumCPU()` -/
  NumCPU : Nat
  /-- slice returned by `cpu.Percent(time.Second, false)` -/
  cpuPercent : List F
  /-- slice returned by `cpu.Info()` -/
  cpuInfo : List InfoStat
  /-- pointer returned by `mem.VirtualMemory()` -/
  virtualMemory : Option (VirtualMemoryStat F)
  /-- slice returned by `disk.Partitions(true)` -/
  partitions : List PartitionStat
  /-- pointer returned by `disk.Usage(mountpoint)` -/
  usage : String → Option (UsageStat F)
  /-- slice returned by `net.IOCounters(true)` -/
  counters : List IOCountersStat
  /-- outcome of `os.ReadFile(tempFile)`: the error or the content -/
  tempFile : Except String String
  /-- pointer returned by `load.Avg()` -/
  loadAvg : Option (AvgStat F)

/-! ## `formatBytes` -/

/-- Constant `unit` of `formatBytes`. -/
def unit : Nat := 1024

/-- The loop `for n := bytes / unit; n >= unit; n /= unit { div *= unit; exp++ }`, from the
state `(n, div, exp)`; it returns the final `(div, exp)`.  The first argument bounds the
number of iterations; `n` itself is always enough, since `n / unit < n` when `n >= unit`. -/
def formatBytesLoop : Nat → Nat → Nat → Nat → Nat × Nat
  | 0, _, div, exp => (div, exp)
  | fuel + 1, n, div, exp =>
    if n ≥ unit then formatBytesLoop fuel (n / unit) (div * unit % 2 ^ 64) (exp + 1)
    else (div, exp)

/-- Number of low bits that `float64(x)` drops: the least `s` with `x / 2 ^ s < 2 ^ 53`
(at most 11 for a `uint64`). -/
def float64Shift : Nat → Nat → Nat
  | 0, _ => 0
  | fuel + 1, x => if x < 2 ^ 53 then 0 else float64Shift fuel (x / 2) + 1

/-- The conversion `float64(x)` of a `uint64`: `x` rounded to 53 significant bits, ties
to even.  The result is the exact value of the float, an integer. -/
def float64OfUint64 (x : Nat) : Nat :=
  let sh := float64Shift 11 x
  let q := x / 2 ^ sh
  let r := x % 2 ^ sh
  (if 2 ^ sh < 2 * r ∨ (2 * r = 2 ^ sh ∧ q % 2 = 1) then q + 1 else q) * 2 ^ sh

/-- Number of tenths that `%.1f` prints for the value `num / den`: the quotient rounded to
one decimal, ties to the even digit (Go formats the exact decimal expansion). -/
def roundTenths (num den : Nat) : Nat :=
  let q := 10 * num / den
  let r := 10 * num % den
  if den < 2 * r ∨ (2 * r = den ∧ q % 2 = 1) then q + 1 else q

/-- Decimal text of a number of tenths: integer part, point, one digit. -/
def decimal1 (t : Nat) : String :=
  toString (t / 10) ++ "." ++ toString (t % 10)

/-- Verb `%.1f` applied to the non-negative value `num / den`. -/
def sprintfF1 (num den : Nat) : String :=
  decimal1 (roundTenths num den)

/-- Function `formatBytes`.  The result is `none` when the index `"KMGTPE"[exp]` is out of
range. -/
def formatBytes (bytes : Nat) : Option String :=
  if bytes < unit then some (toString bytes ++ " B")
  else
    let r := formatBytesLoop (bytes / unit) (bytes / unit) unit 0
    match "KMGTPE".data[r.2]? with
    | some c =>
      some (sprintfF1 (float64OfUint64 bytes) r.1 ++ " " ++ String.singleton c ++ "iB")
    | none => none

/-- Index of the unit `formatBytes` chooses among B, KiB, MiB, GiB, TiB, PiB, EiB: `0` on
the first return, `exp + 1` on the second. -/
def unitIndex (bytes : Nat) : Nat :=
  if bytes < unit then 0
  else (formatBytesLoop (bytes / unit) (bytes / unit) unit 0).2 + 1

/-- `formatBytes` inside a printing function. -/
def formatBytesRun (bytes : Uint64) : Run String :=
  Run.deref (formatBytes bytes.val)

/-! ## The report sections -/

/-- Function `printCPUInfo`. -/
def printCPUInfo {F : Type} (ops : Float64Ops F) (percent : List F) (info : List InfoStat)
    (numCPU : Nat) : Run Unit := do
  Run.Println "=== CPU ==="
  let info0 ← Run.index info 0
  Run.Printf ("Model: " ++ info0.ModelName ++ "\n")
  Run.Printf ("Cores: " ++ toString numCPU ++ "\n")
  let percent0 ← Run.index percent 0
  Run.Printf ("Usage: " ++ ops.fmt2 percent0 ++ "%\n")

/-- Function `printMemoryInfo`. -/
def printMemoryInfo {F : Type} (ops : Float64Ops F) (vmem : Option (VirtualMemoryStat F)) :
    Run Unit := do
  Run.Println "\n=== Memory ==="
  let v ← Run.deref vmem
  let total ← formatBytesRun v.Total
  Run.Printf ("Total: " ++ total ++ "\n")
  let available ← formatBytesRun v.Available
  Run.Printf ("Available: " ++ available ++ "\n")
  let used ← formatBytesRun v.Used
  Run.Printf ("Used: " ++ used ++ " (" ++ ops.fmt2 v.UsedPercent ++ "%)\n")

/-- Function `printDiskInfo`. -/
def printDiskInfo {F : Type} (ops : Float64Ops F) (partitions : List PartitionStat)
    (usage : String → Option (UsageStat F)) : Run Unit := do
  Run.Println "\n=== Disk ==="
  Run.forRange partitions fun p => do
    let us ← Run.deref (usage p.Mountpoint)
    let used ← formatBytesRun us.Used
    let total ← formatBytesRun us.Total
    Run.Printf ("[" ++ p.Mountpoint ++ "] " ++ used ++ "/" ++ total
      ++ " (" ++ ops.fmt2 us.UsedPercent ++ "%)\n")

/-- Function `printNetworkInfo`. -/
def printNetworkInfo (counters : List IOCountersStat) : Run Unit := do
  Run.Println "\n=== Network ==="
  Run.forRange counters fun iface =>
    if iface.BytesSent.val > 0 ∨ iface.BytesRecv.val > 0 then do
      Run.Printf (iface.Name ++ ":\n")
      let sent ← formatBytesRun iface.BytesSent
      Run.Printf ("  Sent: " ++ sent ++ "\n")
      let recv ← formatBytesRun iface.BytesRecv
      Run.Printf ("  Recv: " ++ recv ++ "\n")
    else Run.pure ()

/-- Function `readCPUTemperature`: the pair `(float64, error)` as an `Except`. -/
def readCPUTemperature {F : Type} (ops : Float64Ops F) (goos : String)
    (file : Except String String) : Except String F :=
  if goos ≠ "linux" then Except.error "not supported"
  else
    match file with
    | Except.error err => Except.error err
    | Except.ok data =>
      let temp := (ops.sscanf data).getD ops.zero
      Except.ok (ops.div1000 temp)

/-- Function `printTemperature`. -/
def printTemperature {F : Type} (ops : Float64Ops F) (goos : String)
    (file : Except String String) : Run Unit :=
  match readCPUTemperature ops goos file with
  | Except.ok temp => Run.Printf ("\n=== Temperature ===\nCPU: " ++ ops.fmt1 temp ++ "°C\n")
  | Except.error _ => Run.pure ()

/-- Function `printLoadInfo`. -/
def printLoadInfo {F : Type} (ops : Float64Ops F) (avg : Option (AvgStat F)) : Run Unit := do
  Run.Println "\n=== System Load ==="
  let a ← Run.deref avg
  Run.Printf ("1m: " ++ ops.fmt2 a.Load1 ++ ", 5m: " ++ ops.fmt2 a.Load5
    ++ ", 15m: " ++ ops.fmt2 a.Load15 ++ "\n")

/-- Function `printSystemInfo`. -/
def printSystemInfo {F : Type} (ops : Float64Ops F) (host : Host F) : Run Unit := do
  printCPUInfo ops host.cpuPercent host.cpuInfo host.NumCPU
  printMemoryInfo ops host.virtualMemory
  printDiskInfo ops host.partitions host.usage
  printNetworkInfo host.counters
  if host.GOOS = "linux" then
    printTemperature ops host.GOOS host.tempFile
  printLoadInfo ops host.loadAvg

/-! ## The report as the specification words it -/

/-- Names of the units, by index (specification, section 4.2). -/
def unitNames : List String := ["B", "KiB", "MiB", "GiB", "TiB", "PiB", "EiB"]

/-- Name of the unit with index `u`. -/
def unitName (u : Nat) : String := unitNames.getD u ""

/-- The `<size>` of the template: the text `formatBytes` returns for a 64-bit counter. -/
def sizeText (b : Uint64) : String := (formatBytes b.val).getD ""

/-- Concatenation of a list of texts, in order. -/
def concat : List String → String
  | [] => ""
  | s :: rest => s ++ concat rest

/-- An interface is active when its sent and received byte counters are not both zero. -/
def isActive (iface : IOCountersStat) : Bool :=
  !(iface.BytesSent = 0 && iface.BytesRecv = 0)

/-- Entry of one interface in the Network section: name line, Sent line, Recv line. -/
def networkEntry (iface : IOCountersStat) : String :=
  iface.Name ++ ":\n" ++ "  Sent: " ++ sizeText iface.BytesSent ++ "\n"
    ++ "  Recv: " ++ sizeText iface.BytesRecv ++ "\n"

/-- Per-mount-point entry of the snapshot (specification, section 3). -/
structure DiskEntry (F : Type) where
  mountPath : String
  usedBytes : Uint64
  totalBytes : Uint64
  usedPercent : F

/-- The collected values of one iteration (specification, section 3). -/
structure MetricsSnapshot (F : Type) where
  model : String
  cores : Nat
  usage : F
  memTotal : Uint64
  memAvailable : Uint64
  memUsed : Uint64
  memUsedPercent : F
  disks : List (DiskEntry F)
  interfaces : List IOCountersStat
  temperature : Option F
  load1 : F
  load5 : F
  load15 : F

/-- Line of one partition in the Disk section. -/
def diskLine {F : Type} (ops : Float64Ops F) (d : DiskEntry F) : String :=
  "[" ++ d.mountPath ++ "] " ++ sizeText d.usedBytes ++ "/" ++ sizeText d.totalBytes
    ++ " (" ++ ops.fmt2 d.usedPercent ++ "%)\n"

/-- The Temperature section of the template: present only with a reading. -/
def temperatureSection {F : Type} (ops : Float64Ops F) : Option F → String
  | some t => "\n=== Temperature ===\n" ++ "CPU: " ++ ops.fmt1 t ++ "°C\n"
  | none => ""

/-- The literal template of section 6 of the specification, values substituted. -/
def template {F : Type} (ops : Float64Ops F) (s : MetricsSnapshot F) : String :=
  concat [
    "=== CPU ===\n",
    "Model: " ++ s.model ++ "\n",
    "Cores: " ++ toString s.cores ++ "\n",
    "Usage: " ++ ops.fmt2 s.usage ++ "%\n",
    "\n=== Memory ===\n",
    "Total: " ++ sizeText s.memTotal ++ "\n",
    "Available: " ++ sizeText s.memAvailable ++ "\n",
    "Used: " ++ sizeText s.memUsed ++ " (" ++ ops.fmt2 s.memUsedPercent ++ "%)\n",
    "\n=== Disk ===\n",
    concat (s.disks.map (diskLine ops)),
    "\n=== Network ===\n",
    concat ((s.interfaces.filter isActive).map networkEntry),
    temperatureSection ops s.temperature,
    "\n=== System Load ===\n",
    "1m: " ++ ops.fmt2 s.load1 ++ ", 5m: " ++ ops.fmt2 s.load5 ++ ", 15m: "
      ++ ops.fmt2 s.load15 ++ "\n"]

/-- The snapshot that a host with every value present delivers: first entries of the CPU
slices, the memory and load records, the usage record `usage` of each partition. -/
def snapshotOf {F : Type} (ops : Float64Ops F) (goos : String) (numCPU : Nat) (percent0 : F)
    (info0 : InfoStat) (vmem : VirtualMemoryStat F) (partitions : List PartitionStat)
    (usage : String → UsageStat F) (counters : List IOCountersStat)
    (file : Except String String) (avg : AvgStat F) : MetricsSnapshot F :=
  ⟨info0.ModelName, numCPU, percent0, vmem.Total, vmem.Available, vmem.Used,
    vmem.UsedPercent,
    partitions.map (fun p => ⟨p.Mountpoint, (usage p.Mountpoint).Used,
      (usage p.Mountpoint).Total, (usage p.Mountpoint).UsedPercent⟩),
    counters, (readCPUTemperature ops goos file).toOption, avg.Load1, avg.Load5, avg.Load15⟩

/-- A small instance of `Float64Ops` on which the definitions can be run: the values are
whole numbers, printed with zero decimals, and the scan accepts a non-empty run of
decimal digits. -/
def sampleOps : Float64Ops Nat where
  zero := 0
  div1000 := fun x => x / 1000
  fmt1 := fun x => toString x ++ ".0"
  fmt2 := fun x => toString x ++ ".00"
  sscanf := fun s =>
    if s.data ≠ [] ∧ s.data.all Char.isDigit = true then
      some (s.data.foldl (fun acc c => 10 * acc + (c.toNat - 48)) 0)
    else none

/-! # Theorems

## The loop of `formatBytes` -/

theorem pow1024_le_of_le_div {b e : Nat} (h : 1024 ≤ b / 1024 ^ e) : 1024 ^ (e + 1) ≤ b := by
  have hpos : 0 < 1024 ^ e := Nat.pow_pos (by norm_num)
  have := (Nat.le_div_iff_mul_le hpos).1 h
  rw [pow_succ]
  linarith

theorem exp_le_five {b e : Nat} (hb : b < 2 ^ 64) (h : 1024 ≤ b / 1024 ^ e) : e ≤ 5 := by
  by_contra hc
  have h6 : 6 + 1 ≤ e + 1 := by omega
  have h1 : (1024 : Nat) ^ (6 + 1) ≤ 1024 ^ (e + 1) := Nat.pow_le_pow_right (by norm_num) h6
  have h2 := pow1024_le_of_le_div h
  have h3 : (2 : Nat) ^ 64 < 1024 ^ (6 + 1) := by norm_num
  omega

theorem formatBytesLoop_spec (b : Nat) (hb : b < 2 ^ 64) :
    ∀ fuel n div exp, n ≤ fuel → n = b / 1024 ^ (exp + 1) → div = 1024 ^ (exp + 1) →
      1024 ≤ b / 1024 ^ exp →
      (formatBytesLoop fuel n div exp).1 = 1024 ^ ((formatBytesLoop fuel n div exp).2 + 1) ∧
      b / 1024 ^ ((formatBytesLoop fuel n div exp).2 + 1) < 1024 ∧
      1024 ≤ b / 1024 ^ (formatBytesLoop fuel n div exp).2 := by
  intro fuel
  induction fuel with
  | zero =>
    intro n div exp hn hnb hdiv hprev
    simp only [formatBytesLoop]
    refine ⟨hdiv, ?_, hprev⟩
    rw [← hnb]; omega
  | succ fuel ih =>
    intro n div exp hn hnb hdiv hprev
    simp only [formatBytesLoop, unit]
    split
    · rename_i hge
      have hstep : n / 1024 = b / 1024 ^ (exp + 1 + 1) := by
        rw [hnb, Nat.div_div_eq_div_mul, ← pow_succ]
      have hlarge : 1024 ≤ b / 1024 ^ (exp + 1) := by rw [← hnb]; exact hge
      have hle := pow1024_le_of_le_div hlarge
      have hdiv2 : div * 1024 % 2 ^ 64 = 1024 ^ (exp + 1 + 1) := by
        rw [hdiv, ← pow_succ]
        exact Nat.mod_eq_of_lt (by omega)
      exact ih (n / 1024) (div * 1024 % 2 ^ 64) (exp + 1) (by omega) hstep hdiv2 hlarge
    · rename_i hlt
      refine ⟨hdiv, ?_, hprev⟩
      rw [← hnb]; omega

theorem formatBytesLoop_start (b : Nat) (hb : b < 2 ^ 64) (h : 1024 ≤ b) :
    (formatBytesLoop (b / unit) (b / unit) unit 0).1
        = 1024 ^ ((formatBytesLoop (b / unit) (b / unit) unit 0).2 + 1) ∧
      b / 1024 ^ ((formatBytesLoop (b / unit) (b / unit) unit 0).2 + 1) < 1024 ∧
      1024 ≤ b / 1024 ^ (formatBytesLoop (b / unit) (b / unit) unit 0).2 :=
  formatBytesLoop_spec b hb (b / unit) (b / unit) unit 0 (le_refl _) (by simp [unit])
    (by simp [unit]) (by simpa using h)

/-- C1: for every unsigned 64-bit byte count `b`, the unit index `u` that `formatBytes`
chooses (`0` when `b < 1024`, `exp + 1` otherwise) satisfies `b / 1024 ^ u < 1024` and
(`u = 0` or `b / 1024 ^ (u - 1) >= 1024`): it is the smallest index whose scaled value is
below 1024. -/
theorem formatBytes_unit_smallest (b : Nat) (hb : b < 2 ^ 64) :
    b / 1024 ^ unitIndex b < 1024 ∧ (unitIndex b = 0 ∨ 1024 ≤ b / 1024 ^ (unitIndex b - 1)) := by
  unfold unitIndex
  by_cases h : b < unit
  · simp only [h, if_true]
    simp [unit] at h
    simp [h]
  · simp only [h, if_false]
    have h1 : 1024 ≤ b := by simpa [unit] using h
    obtain ⟨_, h2, h3⟩ := formatBytesLoop_start b hb h1
    exact ⟨h2, Or.inr (by simpa using h3)⟩

theorem formatBytes_unit_smallest_witness :
    (2 ^ 64 - 1) / 1024 ^ unitIndex (2 ^ 64 - 1) < 1024 ∧
      (unitIndex (2 ^ 64 - 1) = 0 ∨
        1024 ≤ (2 ^ 64 - 1) / 1024 ^ (unitIndex (2 ^ 64 - 1) - 1)) :=
  formatBytes_unit_smallest (2 ^ 64 - 1) (by decide)

theorem unit_letter (e : Nat) (he : e ≤ 5) :
    ∃ c, "KMGTPE".data[e]? = some c ∧ String.singleton c ++ "iB" = unitName (e + 1) := by
  interval_cases e <;> exact ⟨_, rfl, by decide⟩

theorem float64OfUint64_exact (b : Nat) (h : b < 2 ^ 53) : float64OfUint64 b = b := by
  have hs : float64Shift 11 b = 0 := by
    show (if b < 2 ^ 53 then 0 else float64Shift 10 (b / 2) + 1) = 0
    rw [if_pos h]
  unfold float64OfUint64
  rw [hs]
  simp [Nat.mod_one]

theorem roundTenths_nearest (num den : Nat) (hpos : 0 < den) :
    20 * num ≤ (2 * roundTenths num den + 1) * den ∧
      2 * roundTenths num den * den ≤ 20 * num + den := by
  have hdm : den * (10 * num / den) + 10 * num % den = 10 * num := Nat.div_add_mod _ _
  have hr : 10 * num % den < den := Nat.mod_lt _ hpos
  unfold roundTenths
  simp only
  generalize 10 * num / den = q at *
  generalize 10 * num % den = r at *
  have e1 : (2 * (q + 1) + 1) * den = 2 * (den * q) + 3 * den := by ring
  have e2 : 2 * (q + 1) * den = 2 * (den * q) + 2 * den := by ring
  have e3 : (2 * q + 1) * den = 2 * (den * q) + den := by ring
  have e4 : 2 * q * den = 2 * (den * q) := by ring
  split_ifs with hc
  · rw [e1, e2]
    rcases hc with hc | ⟨hc, _⟩ <;> constructor <;> omega
  · rw [e3, e4]
    push_neg at hc
    constructor <;> omega

theorem formatBytes_eq (b : Nat) (h1 : 1024 ≤ b) (hb : b < 2 ^ 64) :
    formatBytes b = some (sprintfF1 (float64OfUint64 b) (1024 ^ unitIndex b) ++ " "
      ++ unitName (unitIndex b)) := by
  have hnot : ¬ b < unit := by simp [unit]; omega
  obtain ⟨hd, _, hge⟩ := formatBytesLoop_start b hb h1
  obtain ⟨c, hc, hname⟩ := unit_letter _ (exp_le_five hb hge)
  simp only [formatBytes, unitIndex, hnot, if_false, hc, hd]
  rw [← hname, String.append_assoc (_ ++ " ")]

theorem unitIndex_bounds (b : Nat) (h1 : 1024 ≤ b) (hb : b < 2 ^ 64) :
    1 ≤ unitIndex b ∧ unitIndex b ≤ 6 ∧ 1024 ^ unitIndex b ≤ b ∧
      b < 1024 * 1024 ^ unitIndex b := by
  have hnot : ¬ b < unit := by simp [unit]; omega
  obtain ⟨_, hlt, hge⟩ := formatBytesLoop_start b hb h1
  have h5 := exp_le_five hb hge
  simp only [unitIndex, hnot, if_false]
  refine ⟨by omega, by omega, pow1024_le_of_le_div hge, ?_⟩
  have hpos : 0 < 1024 ^ ((formatBytesLoop (b / unit) (b / unit) unit 0).2 + 1) :=
    Nat.pow_pos (by norm_num)
  have := (Nat.div_lt_iff_lt_mul hpos).1 hlt
  linarith

/-- C3: for every byte count `1024 <= b < 2 ^ 53`, `formatBytes b` is a one-decimal number
`t / 10`, a space and the name of the chosen unit (one of KiB ... EiB), where `t / 10` is
`b / 1024 ^ u` rounded to one decimal: `|b / 1024 ^ u - t / 10| <= 1 / 20`, written
`20 b <= (2 t + 1) 1024 ^ u` and `2 t 1024 ^ u <= 20 b + 1024 ^ u`.  In particular
`formatBytes 1024 = "1.0 KiB"`, `formatBytes 1536 = "1.5 KiB"` and
`formatBytes 1073741824 = "1.0 GiB"`. -/
theorem formatBytes_one_decimal (b : Nat) (h1 : 1024 ≤ b) (h2 : b < 2 ^ 53) :
    (∃ t : Nat, formatBytes b = some (decimal1 t ++ " " ++ unitName (unitIndex b)) ∧
      20 * b ≤ (2 * t + 1) * 1024 ^ unitIndex b ∧
      2 * t * 1024 ^ unitIndex b ≤ 20 * b + 1024 ^ unitIndex b) ∧
    1 ≤ unitIndex b ∧ unitIndex b ≤ 6 ∧
    formatBytes 1024 = some "1.0 KiB" ∧ formatBytes 1536 = some "1.5 KiB" ∧
    formatBytes 1073741824 = some "1.0 GiB" := by
  have hb : b < 2 ^ 64 := lt_trans h2 (by norm_num)
  obtain ⟨hu1, hu6, _, _⟩ := unitIndex_bounds b h1 hb
  have hpos : 0 < 1024 ^ unitIndex b := Nat.pow_pos (by norm_num)
  refine ⟨⟨roundTenths b (1024 ^ unitIndex b), ?_, roundTenths_nearest _ _ hpos⟩, hu1, hu6,
    by decide, by decide, by decide⟩
  rw [formatBytes_eq b h1 hb, float64OfUint64_exact b h2]
  rfl

theorem formatBytes_one_decimal_witness :
    (∃ t : Nat, formatBytes 1280 = some (decimal1 t ++ " " ++ unitName (unitIndex 1280)) ∧
      20 * 1280 ≤ (2 * t + 1) * 1024 ^ unitIndex 1280 ∧
      2 * t * 1024 ^ unitIndex 1280 ≤ 20 * 1280 + 1024 ^ unitIndex 1280) ∧
    1 ≤ unitIndex 1280 ∧ unitIndex 1280 ≤ 6 ∧
    formatBytes 1024 = some "1.0 KiB" ∧ formatBytes 1536 = some "1.5 KiB" ∧
    formatBytes 1073741824 = some "1.0 GiB" :=
  formatBytes_one_decimal 1280 (by decide) (by decide)

/-- C10: for every byte count `1024 <= b < 2 ^ 53` the number of tenths `t` that
`formatBytes` prints in front of the unit satisfies `10 <= t <= 10240`, that is
`1.0 <= p <= 1024.0`; the upper bound is attained, `formatBytes 1048575 = "1024.0 KiB"`,
since the rounding comes after the choice of the unit. -/
theorem formatBytes_printed_range (b : Nat) (h1 : 1024 ≤ b) (h2 : b < 2 ^ 53) :
    formatBytes b = some (decimal1 (roundTenths b (1024 ^ unitIndex b)) ++ " "
        ++ unitName (unitIndex b)) ∧
      10 ≤ roundTenths b (1024 ^ unitIndex b) ∧ roundTenths b (1024 ^ unitIndex b) ≤ 10240 ∧
      formatBytes 1048575 = some "1024.0 KiB" ∧
      roundTenths 1048575 (1024 ^ unitIndex 1048575) = 10240 := by
  have hb : b < 2 ^ 64 := lt_trans h2 (by norm_num)
  obtain ⟨_, _, hlo, hhi⟩ := unitIndex_bounds b h1 hb
  have hpos : 0 < 1024 ^ unitIndex b := Nat.pow_pos (by norm_num)
  obtain ⟨hn1, hn2⟩ := roundTenths_nearest b (1024 ^ unitIndex b) hpos
  refine ⟨?_, ?_, ?_, by decide, by decide⟩
  · rw [formatBytes_eq b h1 hb, float64OfUint64_exact b h2]
    rfl
  · by_contra hc
    push_neg at hc
    have : (2 * roundTenths b (1024 ^ unitIndex b) + 1) * 1024 ^ unitIndex b
        ≤ 19 * 1024 ^ unitIndex b := Nat.mul_le_mul_right _ (by omega)
    omega
  · by_contra hc
    push_neg at hc
    have : 2 * 10241 * 1024 ^ unitIndex b
        ≤ 2 * roundTenths b (1024 ^ unitIndex b) * 1024 ^ unitIndex b :=
      Nat.mul_le_mul_right _ (by omega)
    omega

theorem formatBytes_printed_range_witness :
    formatBytes 1048575 = some (decimal1 (roundTenths 1048575 (1024 ^ unitIndex 1048575)) ++ " "
        ++ unitName (unitIndex 1048575)) ∧
      10 ≤ roundTenths 1048575 (1024 ^ unitIndex 1048575) ∧
      roundTenths 1048575 (1024 ^ unitIndex 1048575) ≤ 10240 ∧
      formatBytes 1048575 = some "1024.0 KiB" ∧
      roundTenths 1048575 (1024 ^ unitIndex 1048575) = 10240 :=
  formatBytes_printed_range 1048575 (by decide) (by decide)

/-- C2: for every unsigned 64-bit byte count `b >= 1024` the loop of `formatBytes` ends
with `exp <= 5`, the lookup `"KMGTPE"[exp]` is in range, the divisor is the true power
`1024 ^ (exp + 1)` (the reduction modulo `2 ^ 64` never changed it) and is at most
`2 ^ 60`, and `formatBytes` returns a text. -/
theorem formatBytes_exp_in_bounds (b : Nat) (h1 : 1024 ≤ b) (hb : b < 2 ^ 64) :
    (formatBytesLoop (b / unit) (b / unit) unit 0).2 ≤ 5 ∧
      ("KMGTPE".data[(formatBytesLoop (b / unit) (b / unit) unit 0).2]?).isSome = true ∧
      (formatBytesLoop (b / unit) (b / unit) unit 0).1
        = 1024 ^ ((formatBytesLoop (b / unit) (b / unit) unit 0).2 + 1) ∧
      (formatBytesLoop (b / unit) (b / unit) unit 0).1 ≤ 2 ^ 60 ∧
      (formatBytes b).isSome = true := by
  obtain ⟨hd, _, hge⟩ := formatBytesLoop_start b hb h1
  have h5 := exp_le_five hb hge
  obtain ⟨c, hc, _⟩ := unit_letter _ h5
  refine ⟨h5, by rw [hc]; rfl, hd, ?_, by rw [formatBytes_eq b h1 hb]; rfl⟩
  rw [hd]
  calc 1024 ^ ((formatBytesLoop (b / unit) (b / unit) unit 0).2 + 1)
      ≤ 1024 ^ (5 + 1) := Nat.pow_le_pow_right (by norm_num) (by omega)
    _ = 2 ^ 60 := by norm_num

theorem formatBytes_exp_in_bounds_witness :
    (formatBytesLoop ((2 ^ 64 - 1) / unit) ((2 ^ 64 - 1) / unit) unit 0).2 ≤ 5 ∧
      ("KMGTPE".data[(formatBytesLoop ((2 ^ 64 - 1) / unit) ((2 ^ 64 - 1) / unit) unit 0).2]?).isSome
        = true ∧
      (formatBytesLoop ((2 ^ 64 - 1) / unit) ((2 ^ 64 - 1) / unit) unit 0).1
        = 1024 ^ ((formatBytesLoop ((2 ^ 64 - 1) / unit) ((2 ^ 64 - 1) / unit) unit 0).2 + 1) ∧
      (formatBytesLoop ((2 ^ 64 - 1) / unit) ((2 ^ 64 - 1) / unit) unit 0).1 ≤ 2 ^ 60 ∧
      (formatBytes (2 ^ 64 - 1)).isSome = true :=
  formatBytes_exp_in_bounds (2 ^ 64 - 1) (by decide) (by decide)

/-! ## Decimal digits -/

theorem digitChar_ne_point (m : Nat) (h : m < 10) : Nat.digitChar m ≠ '.' := by
  interval_cases m <;> decide

theorem toDigitsCore_no_point :
    ∀ (fuel n : Nat) (acc : List Char), '.' ∉ acc → '.' ∉ Nat.toDigitsCore 10 fuel n acc := by
  intro fuel
  induction fuel with
  | zero => intro n acc h; simpa [Nat.toDigitsCore] using h
  | succ fuel ih =>
    intro n acc h
    have hd : '.' ∉ Nat.digitChar (n % 10) :: acc := by
      intro hmem
      rcases List.mem_cons.1 hmem with heq | hin
      · exact digitChar_ne_point (n % 10) (Nat.mod_lt _ (by norm_num)) heq.symm
      · exact h hin
    simp only [Nat.toDigitsCore]
    split
    · exact hd
    · exact ih _ _ hd

theorem toString_no_point (n : Nat) : '.' ∉ (toString n).data := by
  show '.' ∉ Nat.toDigitsCore 10 (n + 1) n []
  exact toDigitsCore_no_point _ _ _ (by simp)

theorem formatBytes_lt_unit (b : Nat) (h : b < 1024) :
    formatBytes b = some (toString b ++ " B") := by
  simp [formatBytes, unit, h]

/-- C4: for every byte count `b < 1024`, `formatBytes b` is the decimal representation of
`b` followed by `" B"`, and contains no decimal point; in particular
`formatBytes 0 = "0 B"` and `formatBytes 1023 = "1023 B"`. -/
theorem formatBytes_below_unit (b : Nat) (h : b < 1024) :
    formatBytes b = some (toString b ++ " B") ∧ '.' ∉ (toString b ++ " B").data ∧
      formatBytes 0 = some "0 B" ∧ formatBytes 1023 = some "1023 B" := by
  refine ⟨formatBytes_lt_unit b h, ?_, by decide, by decide⟩
  rw [String.data_append]
  intro hmem
  rcases List.mem_append.1 hmem with h1 | h2
  · exact toString_no_point b h1
  · revert h2; decide

theorem formatBytes_below_unit_witness :
    formatBytes 512 = some (toString 512 ++ " B") ∧ '.' ∉ (toString 512 ++ " B").data ∧
      formatBytes 0 = some "0 B" ∧ formatBytes 1023 = some "1023 B" :=
  formatBytes_below_unit 512 (by decide)

/-! ## Lemmas on running the sections -/

theorem formatBytes_sizeText (b : Uint64) : formatBytes b.val = some (sizeText b) := by
  have hsome : ∃ s, formatBytes b.val = some s := by
    by_cases h : b.val < 1024
    · exact ⟨_, formatBytes_lt_unit b.val h⟩
    · exact ⟨_, formatBytes_eq b.val (by omega) b.isLt⟩
  obtain ⟨s, hs⟩ := hsome
  unfold sizeText
  rw [hs]
  rfl

theorem formatBytesRun_eq (b : Uint64) : formatBytesRun b = ⟨"", some (sizeText b)⟩ := by
  simp [formatBytesRun, Run.deref, formatBytes_sizeText]

theorem bind_done {α β : Type} (s : String) (a : α) (f : α → Run β) :
    Run.bind ⟨s, some a⟩ f = ⟨s ++ (f a).out, (f a).val⟩ := rfl

theorem bind_panicked {α β : Type} (s : String) (f : α → Run β) :
    Run.bind ⟨s, none⟩ f = ⟨s, none⟩ := rfl

theorem forRange_done {α : Type} (body : α → Run Unit) (text : α → String) :
    ∀ xs : List α, (∀ x ∈ xs, body x = ⟨text x, some ()⟩) →
      Run.forRange xs body = ⟨concat (xs.map text), some ()⟩ := by
  intro xs
  induction xs with
  | nil => intro _; rfl
  | cons x xs ih =>
    intro h
    have hx := h x (List.mem_cons_self _ _)
    have hxs := ih (fun y hy => h y (List.mem_cons_of_mem _ hy))
    simp only [Run.forRange, hx, hxs, bind_done, List.map_cons, concat]

theorem concat_filter_map {α : Type} (p : α → Bool) (text : α → String) :
    ∀ xs : List α, concat (xs.map (fun x => if p x = true then text x else ""))
      = concat ((xs.filter p).map text) := by
  intro xs
  induction xs with
  | nil => rfl
  | cons x xs ih =>
    by_cases hp : p x = true
    · simp [List.filter_cons, hp, concat, ih]
    · simp [List.filter_cons, hp, concat, ih]

theorem isActive_iff (iface : IOCountersStat) :
    isActive iface = true ↔ (iface.BytesSent.val > 0 ∨ iface.BytesRecv.val > 0) := by
  unfold isActive
  simp only [Bool.not_eq_true', Bool.and_eq_false_iff, decide_eq_false_iff_not, Fin.ext_iff,
    Fin.val_zero]
  omega

theorem printNetworkInfo_eq (counters : List IOCountersStat) :
    printNetworkInfo counters
      = ⟨"\n=== Network ===\n" ++ concat ((counters.filter isActive).map networkEntry),
          some ()⟩ := by
  have hbody : ∀ iface ∈ counters,
      (if iface.BytesSent.val > 0 ∨ iface.BytesRecv.val > 0 then
          (do
            Run.Printf (iface.Name ++ ":\n")
            let sent ← formatBytesRun iface.BytesSent
            Run.Printf ("  Sent: " ++ sent ++ "\n")
            let recv ← formatBytesRun iface.BytesRecv
            Run.Printf ("  Recv: " ++ recv ++ "\n") : Run Unit)
        else Run.pure ())
        = ⟨if isActive iface = true then networkEntry iface else "", some ()⟩ := by
    intro iface _
    by_cases h : iface.BytesSent.val > 0 ∨ iface.BytesRecv.val > 0
    · rw [if_pos h, if_pos ((isActive_iff iface).2 h)]
      simp only [bind, Run.Printf, formatBytesRun_eq, bind_done, networkEntry,
        String.empty_append, String.append_assoc]
    · rw [if_neg h, if_neg (fun hc => h ((isActive_iff iface).1 hc))]
      rfl
  unfold printNetworkInfo
  rw [forRange_done _ _ counters hbody, concat_filter_map]
  rfl

/-- C5: for every list of interface counters, `printNetworkInfo` prints the Network header
and then an entry (name line, Sent line, Recv line) for exactly the interfaces whose sent
and received counters are not both zero, in their original order, and does not panic; an
interface with sent 0 and recv 5 is printed, one with sent 0 and recv 0 is not. -/
theorem printNetworkInfo_active_only (counters : List IOCountersStat) :
    printNetworkInfo counters
        = ⟨"\n=== Network ===\n" ++ concat ((counters.filter
            (fun i => !(i.BytesSent = 0 && i.BytesRecv = 0))).map
            (fun i => i.Name ++ ":\n" ++ "  Sent: " ++ sizeText i.BytesSent ++ "\n"
              ++ "  Recv: " ++ sizeText i.BytesRecv ++ "\n")), some ()⟩ ∧
      printNetworkInfo [⟨"lo", ⟨0, by decide⟩, ⟨0, by decide⟩⟩, ⟨"eth0", ⟨0, by decide⟩, ⟨5, by decide⟩⟩]
        = ⟨"\n=== Network ===\neth0:\n  Sent: 0 B\n  Recv: 5 B\n", some ()⟩ :=
  ⟨printNetworkInfo_eq counters, by decide⟩

theorem printCPUInfo_eq {F : Type} (ops : Float64Ops F) (p : F) (ps : List F) (i : InfoStat)
    (is : List InfoStat) (n : Nat) :
    printCPUInfo ops (p :: ps) (i :: is) n
      = ⟨"=== CPU ===\n" ++ ("Model: " ++ i.ModelName ++ "\n" ++ ("Cores: " ++ toString n ++ "\n"
          ++ ("Usage: " ++ ops.fmt2 p ++ "%\n"))), some ()⟩ := by
  simp only [printCPUInfo, bind, Run.Println, Run.Printf, Run.index, bind_done,
    List.getElem?_cons_zero, String.empty_append]
  rfl

theorem printMemoryInfo_eq {F : Type} (ops : Float64Ops F) (v : VirtualMemoryStat F) :
    printMemoryInfo ops (some v)
      = ⟨"\n=== Memory ===\n" ++ ("Total: " ++ sizeText v.Total ++ "\n"
          ++ ("Available: " ++ sizeText v.Available ++ "\n"
          ++ ("Used: " ++ sizeText v.Used ++ " (" ++ ops.fmt2 v.UsedPercent ++ "%)\n"))),
          some ()⟩ := by
  simp only [printMemoryInfo, bind, Run.Println, Run.Printf, Run.deref, formatBytesRun_eq,
    bind_done, String.empty_append]
  rfl

theorem printDiskInfo_eq {F : Type} (ops : Float64Ops F) (parts : List PartitionStat)
    (u : String → UsageStat F) :
    printDiskInfo ops parts (fun m => some (u m))
      = ⟨"\n=== Disk ===\n" ++ concat (parts.map (fun p => diskLine ops
          ⟨p.Mountpoint, (u p.Mountpoint).Used, (u p.Mountpoint).Total,
            (u p.Mountpoint).UsedPercent⟩)), some ()⟩ := by
  unfold printDiskInfo
  rw [forRange_done _ (fun p => diskLine ops ⟨p.Mountpoint, (u p.Mountpoint).Used,
    (u p.Mountpoint).Total, (u p.Mountpoint).UsedPercent⟩) parts]
  · rfl
  · intro p _
    simp only [bind, Run.Printf, Run.deref, formatBytesRun_eq, bind_done, String.empty_append,
      diskLine]

theorem printLoadInfo_eq {F : Type} (ops : Float64Ops F) (a : AvgStat F) :
    printLoadInfo ops (some a)
      = ⟨"\n=== System Load ===\n" ++ ("1m: " ++ ops.fmt2 a.Load1 ++ ", 5m: "
          ++ ops.fmt2 a.Load5 ++ ", 15m: " ++ ops.fmt2 a.Load15 ++ "\n"), some ()⟩ := by
  simp only [printLoadInfo, bind, Run.Println, Run.Printf, Run.deref, bind_done,
    String.empty_append]
  rfl

theorem printTemperature_eq {F : Type} (ops : Float64Ops F) (goos : String)
    (file : Except String String) :
    printTemperature ops goos file
      = ⟨temperatureSection ops (readCPUTemperature ops goos file).toOption, some ()⟩ := by
  by_cases h : goos = "linux"
  · subst h
    cases file with
    | error e => rfl
    | ok data =>
      simp only [printTemperature, readCPUTemperature, Run.Printf,
        temperatureSection, Except.toOption, String.append_assoc]
      rfl
  · simp only [printTemperature, readCPUTemperature, ne_eq, h, not_false_eq_true, if_true]
    rfl

theorem readCPUTemperature_other {F : Type} (ops : Float64Ops F) (goos : String)
    (file : Except String String) (h : ¬ goos = "linux") :
    (readCPUTemperature ops goos file).toOption = none := by
  simp only [readCPUTemperature, ne_eq, h, not_false_eq_true, if_true]
  rfl

theorem temperature_present_iff {F : Type} (ops : Float64Ops F) (goos : String)
    (file : Except String String) :
    (readCPUTemperature ops goos file).toOption.isSome = true
      ↔ goos = "linux" ∧ ∃ data, file = Except.ok data := by
  by_cases h : goos = "linux"
  · subst h
    cases file with
    | error e => simp [readCPUTemperature, Except.toOption]
    | ok data => simp [readCPUTemperature, Except.toOption]
  · simp [readCPUTemperature, Except.toOption, h]

/-- C9: for every host that delivers all the values, the text printed by one call of
`printSystemInfo` is the template of section 6 of the specification with the values
substituted: CPU, Memory, Disk, Network, Temperature, System Load in this order, with the
literal headers, each header after the first preceded by a blank line; the Temperature
section is present exactly on linux when the sensor file was read. -/
theorem printSystemInfo_template {F : Type} (ops : Float64Ops F) (goos : String) (n : Nat)
    (p : F) (ps : List F) (i : InfoStat) (is : List InfoStat) (vm : VirtualMemoryStat F)
    (parts : List PartitionStat) (u : String → UsageStat F) (counters : List IOCountersStat)
    (file : Except String String) (avg : AvgStat F) :
    printSystemInfo ops
        ⟨goos, n, p :: ps, i :: is, some vm, parts, fun m => some (u m), counters, file, some avg⟩
      = ⟨template ops (snapshotOf ops goos n p i vm parts u counters file avg), some ()⟩ ∧
    ((snapshotOf ops goos n p i vm parts u counters file avg).temperature.isSome = true
      ↔ goos = "linux" ∧ ∃ data, file = Except.ok data) := by
  refine ⟨?_, temperature_present_iff ops goos file⟩
  unfold printSystemInfo
  simp only [bind, pure]
  rw [printCPUInfo_eq, printMemoryInfo_eq, printDiskInfo_eq, printNetworkInfo_eq,
    printLoadInfo_eq, printTemperature_eq]
  by_cases h : goos = "linux"
  · simp only [if_pos h, bind_done, template, snapshotOf, concat, List.map_map,
      String.append_assoc, String.append_empty]
    rfl
  · simp only [if_neg h, Run.pure, bind_done, template, snapshotOf, concat, List.map_map,
      String.append_assoc, String.append_empty, String.empty_append,
      readCPUTemperature_other ops goos file h, temperatureSection]
    rfl

/-- C6: evaluation at the failing input.  When every query fails (nil slices, nil
pointers, unreadable sensor file) `printSystemInfo` prints the CPU header and then panics
on `info[0]`, so no other header is printed; `printMemoryInfo` and `printLoadInfo` panic
in the same way on a nil record, after their header. -/
theorem printSystemInfo_all_queries_fail {F : Type} (ops : Float64Ops F) (goos err : String)
    (n : Nat) :
    printSystemInfo ops ⟨goos, n, [], [], none, [], fun _ => none, [], Except.error err, none⟩
        = ⟨"=== CPU ===\n", none⟩ ∧
      printMemoryInfo ops none = ⟨"\n=== Memory ===\n", none⟩ ∧
      printLoadInfo ops none = ⟨"\n=== System Load ===\n", none⟩ :=
  ⟨rfl, rfl, rfl⟩

theorem forRange_panicked {α : Type} (body : α → Run Unit) (text : α → String) (s : String)
    (x : α) (rest : List α) (hx : body x = ⟨s, none⟩) :
    ∀ pre : List α, (∀ y ∈ pre, body y = ⟨text y, some ()⟩) →
      Run.forRange (pre ++ x :: rest) body = ⟨concat (pre.map text) ++ s, none⟩ := by
  intro pre
  induction pre with
  | nil =>
    intro _
    simp only [List.nil_append, Run.forRange, hx, bind_panicked, List.map_nil, concat,
      String.empty_append]
  | cons y pre ih =>
    intro h
    have hy := h y (List.mem_cons_self _ _)
    have hpre := ih (fun z hz => h z (List.mem_cons_of_mem _ hz))
    show Run.bind (body y) (fun _ => Run.forRange (pre ++ x :: rest) body) = _
    rw [hy, hpre, bind_done]
    simp only [List.map_cons, concat, String.append_assoc]

/-- C7: evaluation at the failing input.  When the usage query fails for a partition `p`
(nil pointer) after succeeding for the partitions `pre` before it, `printDiskInfo` prints
the header and the lines of `pre` and then panics on `usage.Used`: the partition is not
skipped and the partitions after it are never printed. -/
theorem printDiskInfo_usage_failure {F : Type} (ops : Float64Ops F)
    (pre : List PartitionStat) (p : PartitionStat) (rest : List PartitionStat)
    (usage : String → Option (UsageStat F)) (u : String → UsageStat F)
    (hpre : ∀ q ∈ pre, usage q.Mountpoint = some (u q.Mountpoint))
    (hp : usage p.Mountpoint = none) :
    printDiskInfo ops (pre ++ p :: rest) usage
      = ⟨"\n=== Disk ===\n" ++ concat (pre.map (fun q => diskLine ops
          ⟨q.Mountpoint, (u q.Mountpoint).Used, (u q.Mountpoint).Total,
            (u q.Mountpoint).UsedPercent⟩)), none⟩ := by
  unfold printDiskInfo
  rw [forRange_panicked _ (fun q => diskLine ops ⟨q.Mountpoint, (u q.Mountpoint).Used,
    (u q.Mountpoint).Total, (u q.Mountpoint).UsedPercent⟩) "" p rest _ pre]
  · simp only [String.append_empty]
    rfl
  · intro q hq
    simp only [bind, hpre q hq, Run.Printf, Run.deref, formatBytesRun_eq, bind_done,
      String.empty_append, diskLine]
  · simp only [bind, hp, Run.deref, bind_panicked]

theorem printDiskInfo_usage_failure_witness :
    printDiskInfo sampleOps ([⟨"/"⟩] ++ ⟨"/mnt"⟩ :: [⟨"/home"⟩])
        (fun m => if m = "/mnt" then none else some ⟨⟨2048, by decide⟩, ⟨1024, by decide⟩, 50⟩)
      = ⟨"\n=== Disk ===\n" ++ concat (([⟨"/"⟩] : List PartitionStat).map
          (fun q => diskLine sampleOps ⟨q.Mountpoint, ⟨1024, by decide⟩, ⟨2048, by decide⟩, 50⟩)),
          none⟩ :=
  printDiskInfo_usage_failure sampleOps [⟨"/"⟩] ⟨"/mnt"⟩ [⟨"/home"⟩]
    (fun m => if m = "/mnt" then none else some ⟨⟨2048, by decide⟩, ⟨1024, by decide⟩, 50⟩)
    (fun _ => ⟨⟨2048, by decide⟩, ⟨1024, by decide⟩, 50⟩)
    (by intro q hq; rw [List.mem_singleton] at hq; subst hq; exact if_neg (by decide))
    (if_pos rfl)

/-- C8: evaluation at the failing input.  On linux, when the sensor file was read but
`Sscanf` scans no number from its content, `readCPUTemperature` reports success with the
value `0 / 1000`, and `printTemperature` prints a Temperature section showing it. -/
theorem printTemperature_unparsed_content {F : Type} (ops : Float64Ops F) (data : String)
    (h : ops.sscanf data = none) :
    readCPUTemperature ops "linux" (Except.ok data) = Except.ok (ops.div1000 ops.zero) ∧
      printTemperature ops "linux" (Except.ok data)
        = ⟨"\n=== Temperature ===\nCPU: " ++ ops.fmt1 (ops.div1000 ops.zero) ++ "°C\n",
            some ()⟩ := by
  have hr : readCPUTemperature ops "linux" (Except.ok data)
      = Except.ok (ops.div1000 ops.zero) := by
    simp [readCPUTemperature, h]
  refine ⟨hr, ?_⟩
  simp only [printTemperature, hr]
  rfl

theorem printTemperature_unparsed_content_witness :
    readCPUTemperature sampleOps "linux" (Except.ok "abc")
        = Except.ok (sampleOps.div1000 sampleOps.zero) ∧
      printTemperature sampleOps "linux" (Except.ok "abc")
        = ⟨"\n=== Temperature ===\nCPU: " ++ sampleOps.fmt1 (sampleOps.div1000 sampleOps.zero)
            ++ "°C\n", some ()⟩ :=
  printTemperature_unparsed_content sampleOps "abc" (by decide)

end Monitor
